import Mathlib

/-!
The tool anonymize-mysqldump: transformer registry, generators, rewriter and pipeline.

A shallow embedding of `internal/helpers/helpers.go` (the transformer registry
and its generators) together with a model of the statement rewriter and the
ordered pipeline, whose Go source is exercised by
`internal/anonymize/anonymize_test.go`.

Conventions of the embedding

* A Go `string` and a `[]byte` are both a Lean `String`.
* A `*sqlparser.SQLVal` argument is an `Option SQLVal` (`none` is the nil
  pointer); `sqlparser.NewStrVal` always yields a value.
* The process-wide mutable state read or written by the generators is a
  `World`: the state of the random sources (`math/rand` and the faker
  library), the reading of the wall clock and the package variable
  `usedEmails`.
* The functions of the libraries the package imports (`faker`, `math/rand`,
  `crypto/md5`, `time`) are the fields of a `Lib`; every definition takes the
  library as a parameter.
* A generator returns `Option`: `none` stands for a call that does not return
  (a run-time panic, or the retry loop of `generateEmail` running out of the
  fuel that bounds it in the model).
-/

set_option linter.unusedVariables false
set_option maxRecDepth 100000

namespace Anonymize

/-! ## Values of the SQL parser -/

/-- The `ValType` enumeration of `sqlparser`. -/
inductive ValType where
  | StrVal
  | IntVal
  | FloatVal
  | HexNum
  | HexVal
  | ValArg
  | BitVal
  deriving DecidableEq, Repr

/-- The `sqlparser.SQLVal` struct: a typed literal and its bytes. -/
structure SQLVal where
  /-- The field `Type` of the struct. -/
  Type_ : ValType
  Val : String
  deriving DecidableEq, Repr

/-- The constructor `sqlparser.NewStrVal`: a string literal holding `s`. -/
def NewStrVal (s : String) : SQLVal :=
  { Type_ := ValType.StrVal, Val := s }

/-! ## The world and the libraries -/

/-- The array `[16]byte` returned by `md5.Sum`. -/
abbrev Digest := { bs : List (Fin 256) // bs.length = 16 }

/-- The mutable state the generators read and write. `usedEmails` is the
package variable `map[string]bool` of `helpers.go`; the only value ever
stored in it is `true`, so it is the list of its keys, latest first. -/
structure World (ρ : Type) where
  rng : ρ
  /-- The reading of `time.Now()`: a `time.Time`, as nanoseconds since the
  Unix epoch. -/
  now : Int
  usedEmails : List String

/-- A random draw: consumes the random source and returns a value. -/
abbrev Gen (ρ : Type) (α : Type) := ρ → α × ρ

/-- The library functions `helpers.go` calls. -/
structure Lib (ρ : Type) where
  internetUserName : Gen ρ String
  internetPassword : Int → Int → Gen ρ String
  internetSafeEmail : Gen ρ String
  internetFreeEmail : Gen ρ String
  internetEmail : Gen ρ String
  internetUrl : Gen ρ String
  internetIpV4Address : Gen ρ String
  phoneNumberCellPhone : Gen ρ String
  nameName : Gen ρ String
  nameFirstName : Gen ρ String
  nameLastName : Gen ρ String
  namePrefix : Gen ρ String
  nameTitle : Gen ρ String
  loremSentence : Int → Gen ρ String
  loremCharacters : Int → Gen ρ String
  addressString : Gen ρ String
  addressStreetAddress : Gen ρ String
  addressSecondaryAddress : Gen ρ String
  addressState : Gen ρ String
  addressCity : Gen ρ String
  addressPostcode : Gen ρ String
  addressCountry : Gen ρ String
  addressCountryCode : Gen ρ String
  businessCreditCardNumber : Gen ρ String
  businessCreditCardExpiryDate : Gen ρ String
  businessCreditCardType : Gen ρ String
  companyName : Gen ρ String
  companySuffix : Gen ρ String
  numberNumber : Int → Gen ρ String
  dateBirthday : Int → Int → Gen ρ Int
  /-- The draw `rand.Int63n n`. -/
  randInt63n : Int → Gen ρ Int
  /-- The draw `rand.Intn n`. -/
  randIntn : Int → Gen ρ Int
  /-- The digest `md5.Sum`. -/
  md5Sum : String → Digest
  /-- The rendering `t.Format(layout)`. -/
  timeFormat : String → Int → String
  /-- The helper `generateFakeNorwegianSSN` of the package, which lives in a
  file other than `helpers.go`: it receives the birthday and may draw from
  the random source. -/
  generateFakeNorwegianSSN : Int → Gen ρ String

/-- The type `func(*sqlparser.SQLVal) *sqlparser.SQLVal`, with the world
passed explicitly. -/
abbrev Transformer (ρ : Type) := Option SQLVal → World ρ → Option (SQLVal × World ρ)

/-- The shape shared by most generators: one draw, wrapped by `NewStrVal`. -/
def strValOf {ρ : Type} (g : Gen ρ String) (w : World ρ) : Option (SQLVal × World ρ) :=
  some (NewStrVal (g w.rng).1, { w with rng := (g w.rng).2 })

/-! ## Standard-library routines written out -/

/-- The constant `hextable` of `encoding/hex`. -/
def hextable : List Char := "0123456789abcdef".toList

/-- The function `hex.EncodeToString`: two characters of `hextable` per byte,
the high nibble first. -/
def hexEncodeToString (src : List (Fin 256)) : String :=
  String.mk (src.flatMap fun v => [hextable.getD (v.val / 16) '0', hextable.getD (v.val % 16) '0'])

/-- The digit loop of `fmt`'s `fmtInteger` in base 10: the decimal digits of
`u`, most significant first (a single `0` for zero). -/
def decimalDigits : Nat → Nat → List Char
  | 0, _ => []
  | fuel + 1, u =>
    if u < 10 then [Char.ofNat (48 + u)]
    else decimalDigits fuel (u / 10) ++ [Char.ofNat (48 + u % 10)]

/-- The verb `%08d` of `fmt.Sprintf` on an `int`: the zero flag turns the
width into a precision, one less when a sign is written. -/
def sprintf08d (n : Int) : String :=
  let negative := decide (n < 0)
  let u := n.natAbs
  let prec := if negative then 7 else 8
  let digits := decimalDigits (u + 1) u
  let padded := List.replicate (prec - digits.length) '0' ++ digits
  String.mk (if negative then '-' :: padded else padded)

/-- Arithmetic of `int64`: the result wraps around. -/
def wrapInt64 (x : Int) : Int :=
  (x + 2 ^ 63) % 2 ^ 64 - 2 ^ 63

/-- The constant `time.Second`, a `time.Duration` in nanoseconds. -/
def Second : Int := 1000000000

/-! ## The generators of `helpers.go` -/

section Generators

variable {ρ : Type} (L : Lib ρ)

def generateUsername (value : Option SQLVal) (w : World ρ) : Option (SQLVal × World ρ) :=
  strValOf L.internetUserName w

def generatePassword (value : Option SQLVal) (w : World ρ) : Option (SQLVal × World ρ) :=
  let drawn := L.internetPassword 8 14 w.rng
  let password := L.md5Sum drawn.1
  some (NewStrVal (hexEncodeToString password.val), { w with rng := drawn.2 })

/-- The retry loop of `generateEmail`, bounded by `fuel` iterations. The
mutex `mu` is held for the whole call, so the call is one atomic step on the
world. -/
def generateEmailLoop : Nat → World ρ → Option (SQLVal × World ρ)
  | 0, _ => none
  | fuel + 1, w =>
    let d1 := L.internetSafeEmail w.rng
    let d2 := L.internetFreeEmail d1.2
    let d3 := L.internetEmail d2.2
    let email := d1.1
    let second_email_option := d2.1
    let third_email_option := d3.1
    if ¬ email ∈ w.usedEmails then
      some (NewStrVal email, { w with rng := d3.2, usedEmails := email :: w.usedEmails })
    else if ¬ second_email_option ∈ w.usedEmails then
      some (NewStrVal second_email_option,
        { w with rng := d3.2, usedEmails := second_email_option :: w.usedEmails })
    else if ¬ third_email_option ∈ w.usedEmails then
      some (NewStrVal third_email_option,
        { w with rng := d3.2, usedEmails := third_email_option :: w.usedEmails })
    else generateEmailLoop fuel { w with rng := d3.2 }

def generateEmail (fuel : Nat) (value : Option SQLVal) (w : World ρ) :
    Option (SQLVal × World ρ) :=
  generateEmailLoop L fuel w

def generatePhoneNumber (value : Option SQLVal) (w : World ρ) : Option (SQLVal × World ρ) :=
  strValOf L.phoneNumberCellPhone w

def generateURL (value : Option SQLVal) (w : World ρ) : Option (SQLVal × World ρ) :=
  strValOf L.internetUrl w

def generateName (value : Option SQLVal) (w : World ρ) : Option (SQLVal × World ρ) :=
  strValOf L.nameName w

def generateFirstName (value : Option SQLVal) (w : World ρ) : Option (SQLVal × World ρ) :=
  strValOf L.nameFirstName w

def generateLastName (value : Option SQLVal) (w : World ρ) : Option (SQLVal × World ρ) :=
  strValOf L.nameLastName w

def generatePersonPrefix (value : Option SQLVal) (w : World ρ) : Option (SQLVal × World ρ) :=
  strValOf L.namePrefix w

def generatePersonTitle (value : Option SQLVal) (w : World ρ) : Option (SQLVal × World ρ) :=
  strValOf L.nameTitle w

def generateParagraph (value : Option SQLVal) (w : World ρ) : Option (SQLVal × World ρ) :=
  strValOf (L.loremSentence 3) w

def generateIPv4 (value : Option SQLVal) (w : World ρ) : Option (SQLVal × World ρ) :=
  strValOf L.internetIpV4Address w

def generateBillingAddress (value : Option SQLVal) (w : World ρ) : Option (SQLVal × World ρ) :=
  let address := ""
  let d1 := L.nameFirstName w.rng
  let address := address ++ (" " ++ d1.1)
  let d2 := L.nameLastName d1.2
  let address := address ++ (" " ++ d2.1)
  let d3 := L.addressString d2.2
  let address := address ++ (" " ++ d3.1)
  let d4 := L.addressCountryCode d3.2
  let address := address ++ (" " ++ d4.1)
  let d5 := L.internetSafeEmail d4.2
  let address := address ++ (" " ++ d5.1)
  let d6 := L.phoneNumberCellPhone d5.2
  let address := address ++ (" " ++ d6.1)
  some (NewStrVal address, { w with rng := d6.2 })

def generateAddress (value : Option SQLVal) (w : World ρ) : Option (SQLVal × World ρ) :=
  strValOf L.addressString w

def generateStreetAddress (value : Option SQLVal) (w : World ρ) : Option (SQLVal × World ρ) :=
  strValOf L.addressStreetAddress w

def generateSecondaryStreetAddress (value : Option SQLVal) (w : World ρ) :
    Option (SQLVal × World ρ) :=
  strValOf L.addressSecondaryAddress w

def generateAddressState (value : Option SQLVal) (w : World ρ) : Option (SQLVal × World ρ) :=
  strValOf L.addressState w

def generateCity (value : Option SQLVal) (w : World ρ) : Option (SQLVal × World ρ) :=
  strValOf L.addressCity w

def generatePostcode (value : Option SQLVal) (w : World ρ) : Option (SQLVal × World ρ) :=
  strValOf L.addressPostcode w

def generateCountry (value : Option SQLVal) (w : World ρ) : Option (SQLVal × World ρ) :=
  strValOf L.addressCountry w

def generateCountryCode (value : Option SQLVal) (w : World ρ) : Option (SQLVal × World ρ) :=
  strValOf L.addressCountryCode w

def generateCreditCardNumber (value : Option SQLVal) (w : World ρ) : Option (SQLVal × World ρ) :=
  strValOf L.businessCreditCardNumber w

def generateCreditCardExpiryDate (value : Option SQLVal) (w : World ρ) :
    Option (SQLVal × World ρ) :=
  strValOf L.businessCreditCardExpiryDate w

def generateCreditCardType (value : Option SQLVal) (w : World ρ) : Option (SQLVal × World ρ) :=
  strValOf L.businessCreditCardType w

def generateCompanyName (value : Option SQLVal) (w : World ρ) : Option (SQLVal × World ρ) :=
  strValOf L.companyName w

def generateCompanySuffix (value : Option SQLVal) (w : World ρ) : Option (SQLVal × World ρ) :=
  strValOf L.companySuffix w

def generateCompanyNumber (value : Option SQLVal) (w : World ρ) : Option (SQLVal × World ρ) :=
  strValOf (L.numberNumber 9) w

def generateShortString (value : Option SQLVal) (w : World ρ) : Option (SQLVal × World ρ) :=
  strValOf (L.loremCharacters 30) w

def generateEmptyString (value : Option SQLVal) (w : World ρ) : Option (SQLVal × World ρ) :=
  some (NewStrVal "", w)

def generateNorwegianSSN (value : Option SQLVal) (w : World ρ) : Option (SQLVal × World ρ) :=
  let birthday := L.dateBirthday 18 90 w.rng
  let ssn := L.generateFakeNorwegianSSN birthday.1 birthday.2
  some (NewStrVal ssn.1, { w with rng := ssn.2 })

/-- The layout both date generators pass to `Format`. -/
def wpLayout : String := "2006-01-02 15:04:05"

def generateWPDateTime (value : Option SQLVal) (w : World ρ) : Option (SQLVal × World ρ) :=
  let maxSeconds : Int := 11 * 365 * 24 * 60 * 60
  let randomSeconds := L.randInt63n maxSeconds w.rng
  let coin := L.randIntn 2 randomSeconds.2
  let futureTime : Int :=
    if coin.1 = 0 then
      w.now + wrapInt64 (randomSeconds.1 * Second)
    else
      w.now + wrapInt64 (wrapInt64 (-randomSeconds.1) * Second)
  some (NewStrVal (L.timeFormat wpLayout futureTime), { w with rng := coin.2 })

def generateWPFutureDateTime (value : Option SQLVal) (w : World ρ) :
    Option (SQLVal × World ρ) :=
  let maxSeconds : Int := 11 * 365 * 24 * 60 * 60
  let randomSeconds := L.randInt63n maxSeconds w.rng
  let futureTime : Int := w.now + wrapInt64 (randomSeconds.1 * Second)
  some (NewStrVal (L.timeFormat wpLayout futureTime), { w with rng := randomSeconds.2 })

/-- The string `nif_seq` of `generateSpanishDniString`. -/
def nif_seq : String := "TRWAGMYFPDXBNJZSQVHLCKE"

def generateSpanishDniString (value : Option SQLVal) (w : World ρ) :
    Option (SQLVal × World ρ) :=
  let number := L.randIntn 99999999 w.rng
  let index := Int.tmod number.1 (nif_seq.length : Int)
  if index < 0 then none
  else
    match nif_seq.toList[index.toNat]? with
    | none => none
    | some c =>
      let letter := String.singleton c
      let dni := sprintf08d number.1 ++ letter
      some (NewStrVal dni, { w with rng := number.2 })

/-- The map built by `GetFakerFuncs`, as the list of its entries in the order
of the map literal. `fuel` bounds the retry loop of the email generator. -/
def GetFakerFuncs (fuel : Nat) : List (String × Transformer ρ) :=
  [ ("username", generateUsername L),
    ("password", generatePassword L),
    ("email", generateEmail L fuel),
    ("url", generateURL L),
    ("name", generateName L),
    ("firstName", generateFirstName L),
    ("lastName", generateLastName L),
    ("personPrefix", generatePersonPrefix L),
    ("personTitle", generatePersonTitle L),
    ("phoneNumber", generatePhoneNumber L),
    ("billingAddressFull", generateBillingAddress L),
    ("addressFull", generateAddress L),
    ("addressStreet", generateStreetAddress L),
    ("addressSecondary", generateSecondaryStreetAddress L),
    ("addressCity", generateCity L),
    ("addressState", generateAddressState L),
    ("addressPostCode", generatePostcode L),
    ("addressCountry", generateCountry L),
    ("addressCountryCode", generateCountryCode L),
    ("paragraph", generateParagraph L),
    ("shortString", generateShortString L),
    ("ipv4", generateIPv4 L),
    ("companyName", generateCompanyName L),
    ("companySuffix", generateCompanySuffix L),
    ("companyNumber", generateCompanyNumber L),
    ("creditCardNumber", generateCreditCardNumber L),
    ("creditCardExpiryDate", generateCreditCardExpiryDate L),
    ("creditCardType", generateCreditCardType L),
    ("norwegianSSN", generateNorwegianSSN L),
    ("WPDateTime", generateWPDateTime L),
    ("WPFutureDateTime", generateWPFutureDateTime L),
    ("purge", generateEmptyString),
    ("spanishDNI", generateSpanishDniString L) ]

/-- Indexing the map of `GetFakerFuncs` by a name: `none` when the name is
not a key. -/
def lookupTransformer (fuel : Nat) (name : String) : Option (Transformer ρ) :=
  (GetFakerFuncs L fuel).lookup name

end Generators

/-- A run of the registry on one world: the transformers named by `calls`
are applied one after the other, each to its input value; the run stops at the
first call that is not registered or does not return. The result lists the
name and the output of every call that returned. -/
def runCalls {ρ : Type} (L : Lib ρ) (fuel : Nat) :
    List (String × Option SQLVal) → World ρ → List (String × SQLVal)
  | [], _ => []
  | (name, value) :: rest, w =>
    match lookupTransformer L fuel name with
    | none => []
    | some f =>
      match f value w with
      | none => []
      | some (out, w') => (name, out) :: runCalls L fuel rest w'

/-- The strings returned by the calls of the email transformer in a run. -/
def returnedEmails (results : List (String × SQLVal)) : List String :=
  (results.filter fun p => p.1 == "email").map fun p => p.2.Val

/-! ## The identifiers the policy may name -/

/-- The recognised transformer names, as the policy input lists them. -/
def recognisedNames : List String :=
  [ "username", "password", "email", "url", "name", "firstName", "lastName",
    "personPrefix", "personTitle", "phoneNumber", "billingAddressFull", "addressFull",
    "addressStreet", "addressSecondary", "addressCity", "addressState", "addressPostCode",
    "addressCountry", "addressCountryCode", "paragraph", "shortString", "ipv4",
    "companyName", "companySuffix", "companyNumber", "creditCardNumber",
    "creditCardExpiryDate", "creditCardType", "norwegianSSN", "WPDateTime",
    "WPFutureDateTime", "purge", "spanishDNI" ]

/-- The value of a lower-case hexadecimal digit: `0`-`9` are 0 to 9, `a`-`f`
are 10 to 15, any other character is not a digit. Written from the meaning
of "lower-hex", independently of `hextable`. -/
def lowerHexValue (c : Char) : Option Nat :=
  if 48 ≤ c.toNat ∧ c.toNat ≤ 57 then some (c.toNat - 48)
  else if 97 ≤ c.toNat ∧ c.toNat ≤ 102 then some (c.toNat - 97 + 10)
  else none

/-- The bytes a lower-case hexadecimal string denotes: two digits per byte,
the first worth sixteen times its value. `none` for an odd length or a
character that is not a digit. -/
def decodeLowerHex : List Char → Option (List Nat)
  | [] => some []
  | [_] => none
  | hi :: lo :: rest =>
    match lowerHexValue hi, lowerHexValue lo, decodeLowerHex rest with
    | some h, some l, some bs => some ((16 * h + l) :: bs)
    | _, _, _ => none

/-! ## The statement rewriter -/

/-- Modelled from the spec: the `Value` of a row (the Go source of the
rewriter is not part of the sources at hand). A value is the literal a
transformer receives: `none` is the null literal. -/
abbrev Value := Option SQLVal

/-- Modelled from the spec: the `ParsedStatement` of the data model. An
INSERT carries its table name, its explicit column list when it has one, and
its rows, each an ordered sequence of values; any other statement is kept as
parsed text. -/
inductive ParsedStatement where
  | insert (tableName : String) (columns : Option (List String)) (rows : List (List Value))
  | other (text : String)
  deriving DecidableEq, Repr

/-- Modelled from the spec: the policy of one table, the declared column
order and the map from column name to transformer name. -/
structure TablePolicy where
  columnOrder : List String
  transformers : List (String × String)
  deriving DecidableEq, Repr

/-- Modelled from the spec: the `Policy`, a map from table name to the
policy of the table. -/
abbrev Policy := List (String × TablePolicy)

/-- Modelled from the spec: the failure modes of the rewriter, which is not
part of the sources at hand. A rewrite does not produce a line when a
transformer name of the
policy is not registered (the fatal configuration error), or a transformer
that was called did not return. -/
inductive RewriteError where
  | unregistered (name : String)
  | noReturn (name : String)
  deriving DecidableEq, Repr

/-- Modelled from the spec: the transformer name configured for a column
position, if any. `names` is the column order in force; a position past its
end, or a column without an entry in the policy, has none. -/
def transformerNameAt (tp : TablePolicy) (names : List String) (j : Nat) : Option String :=
  match names[j]? with
  | none => none
  | some column => tp.transformers.lookup column

/-- Modelled from the spec: step 3 of the rewriter on one row, from position
`j` on. A position with a configured transformer name gets
`registry.lookup(name)(originalValue)`; the others are left untouched. -/
def rewriteRow {ρ : Type} (registry : String → Option (Transformer ρ)) (tp : TablePolicy)
    (names : List String) :
    Nat → List Value → World ρ → Except RewriteError (List Value × World ρ)
  | _, [], w => Except.ok ([], w)
  | j, v :: vs, w =>
    match transformerNameAt tp names j with
    | none =>
      match rewriteRow registry tp names (j + 1) vs w with
      | Except.error e => Except.error e
      | Except.ok (vs', w') => Except.ok (v :: vs', w')
    | some name =>
      match registry name with
      | none => Except.error (RewriteError.unregistered name)
      | some f =>
        match f v w with
        | none => Except.error (RewriteError.noReturn name)
        | some (out, w1) =>
          match rewriteRow registry tp names (j + 1) vs w1 with
          | Except.error e => Except.error e
          | Except.ok (vs', w2) => Except.ok (some out :: vs', w2)

/-- Modelled from the spec: step 3 of the rewriter on every row, in order. -/
def rewriteRows {ρ : Type} (registry : String → Option (Transformer ρ)) (tp : TablePolicy)
    (names : List String) :
    List (List Value) → World ρ → Except RewriteError (List (List Value) × World ρ)
  | [], w => Except.ok ([], w)
  | row :: rows, w =>
    match rewriteRow registry tp names 0 row w with
    | Except.error e => Except.error e
    | Except.ok (row', w1) =>
      match rewriteRows registry tp names rows w1 with
      | Except.error e => Except.error e
      | Except.ok (rows', w2) => Except.ok (row' :: rows', w2)

/-- Modelled from the spec: steps 2 and 3 of the rewriter. A statement that
is not an INSERT, or whose table is not a key of the policy, is returned
unchanged; otherwise the column order is the explicit column list of the
statement when present, else the order the policy declares. -/
def rewriteStatement {ρ : Type} (registry : String → Option (Transformer ρ))
    (policy : Policy) :
    ParsedStatement → World ρ → Except RewriteError (ParsedStatement × World ρ)
  | ParsedStatement.other text, w => Except.ok (ParsedStatement.other text, w)
  | ParsedStatement.insert tableName columns rows, w =>
    match policy.lookup tableName with
    | none => Except.ok (ParsedStatement.insert tableName columns rows, w)
    | some tp =>
      match rewriteRows registry tp (columns.getD tp.columnOrder) rows w with
      | Except.error e => Except.error e
      | Except.ok (rows', w') => Except.ok (ParsedStatement.insert tableName columns rows', w')

/-- Modelled from the spec: the contract `rewrite(line, policy)` of the
statement rewriter. The statement grammar is a capability: `parse` and
`serialize` are parameters. A line that does not parse is returned
unchanged; otherwise the rewritten statement is serialized, followed by its
terminating punctuation and a newline. -/
def rewrite {ρ : Type} (parse : String → Option ParsedStatement)
    (serialize : ParsedStatement → String) (registry : String → Option (Transformer ρ))
    (policy : Policy) (line : String) (w : World ρ) : Except RewriteError (String × World ρ) :=
  match parse line with
  | none => Except.ok (line, w)
  | some stmt =>
    match rewriteStatement registry policy stmt w with
    | Except.error e => Except.error e
    | Except.ok (stmt', w') => Except.ok (serialize stmt' ++ ";\n", w')

/-- A serializer for values: strings in single quotes, other literals as
their bytes, `null` for the null literal. -/
def sampleValue : Value → String
  | none => "null"
  | some v => if v.Type_ = ValType.StrVal then "'" ++ v.Val ++ "'" else v.Val

/-- A serializer in the canonical lowercase form. -/
def sampleSerialize : ParsedStatement → String
  | ParsedStatement.other text => text
  | ParsedStatement.insert tableName columns rows =>
    "insert into " ++ tableName ++
      (match columns with
        | none => ""
        | some cs => "(" ++ ", ".intercalate cs ++ ")") ++
      " values " ++
      ", ".intercalate (rows.map fun row => "(" ++ ", ".intercalate (row.map sampleValue) ++ ")")

/-- The string literal `s` and the integer literal `s`, as values. -/
def strLit (s : String) : Value := some { Type_ := ValType.StrVal, Val := s }

def intLit (s : String) : Value := some { Type_ := ValType.IntVal, Val := s }

/-- The line `usersQuery` of the test file, without its final newline. -/
def usersQuery : String :=
  "INSERT INTO `wp_users` VALUES (1,'username','user_pass','username','hosting@humanmade.com','','2019-06-12 00:59:19','',0,'username'),(2,'username','user_pass','username','hosting@humanmade.com','http://notreal.com/username','2019-06-12 00:59:19','',0,'username');"

/-- The rows of `usersQuery`. -/
def usersRows : List (List Value) :=
  [ [intLit "1", strLit "username", strLit "user_pass", strLit "username",
      strLit "hosting@humanmade.com", strLit "", strLit "2019-06-12 00:59:19", strLit "",
      intLit "0", strLit "username"],
    [intLit "2", strLit "username", strLit "user_pass", strLit "username",
      strLit "hosting@humanmade.com", strLit "http://notreal.com/username",
      strLit "2019-06-12 00:59:19", strLit "", intLit "0", strLit "username"] ]

/-- A parser that knows `usersQuery` and nothing else. -/
def sampleParse (line : String) : Option ParsedStatement :=
  if line = usersQuery then some (ParsedStatement.insert "wp_users" none usersRows) else none

/-- The policy of the table `wp_users`: positions 2 to 5 and 10 are
configured. -/
def usersPolicy : TablePolicy :=
  { columnOrder := ["ID", "user_login", "user_pass", "user_nicename", "user_email", "user_url",
      "user_registered", "user_activation_key", "user_status", "display_name"],
    transformers := [("user_login", "username"), ("user_pass", "password"),
      ("user_nicename", "username"), ("user_email", "email"), ("display_name", "username")] }

def samplePolicy : Policy := [("wp_users", usersPolicy)]

/-- Modelled from the spec: the state of one run of the ordered concurrent
pipeline (the Go source of `setupAndProcessInput` is not part of the sources
at hand). `unread` holds the input lines still to be read; `slots` is the
ordered queue of result slots, one per dispatched line that the consumer has
not dequeued yet, each with its line and, once the rewrite task of the line
has finished, the result; `emitted` is what the consumer has yielded. The
test reads the results as `for line := range lines { result += <-line }`: the
queue is the outer channel and a slot is one of the channels it carries. -/
structure Pipeline where
  unread : List String
  slots : List (String × Option String)
  emitted : List String
  deriving DecidableEq, Repr

/-- Modelled from the spec: the atomic steps of a run. `dispatch` reads the
next line, enqueues a fresh slot and launches the task of the line;
`complete i view` is the task of the `i`-th queued slot finishing, `view`
being what it observed of the shared state while it ran; `consume` is the
consumer dequeuing the slot at the head of the queue. -/
inductive Event (σ : Type) where
  | dispatch
  | complete (i : Nat) (view : σ)
  | consume

/-- Modelled from the spec: one step of the pipeline, `none` when the event
is not enabled. A task writes its own slot once; the consumer takes the head
slot only when its value is available. `task line view` is the text the
rewrite task of `line` produces. -/
def Pipeline.step {σ : Type} (task : String → σ → String) :
    Event σ → Pipeline → Option Pipeline
  | Event.dispatch, s =>
    match s.unread with
    | [] => none
    | line :: rest => some { s with unread := rest, slots := s.slots ++ [(line, none)] }
  | Event.complete i view, s =>
    match s.slots[i]? with
    | some (line, none) => some { s with slots := s.slots.set i (line, some (task line view)) }
    | _ => none
  | Event.consume, s =>
    match s.slots with
    | (_, some result) :: rest => some { s with slots := rest, emitted := s.emitted ++ [result] }
    | _ => none

/-- Modelled from the spec: a run of the pipeline, which is not part of the
sources at hand, under a schedule. The events are taken in order; `none`
when one of them is not enabled where it is scheduled. -/
def Pipeline.run {σ : Type} (task : String → σ → String) :
    List (Event σ) → Pipeline → Option Pipeline
  | [], s => some s
  | e :: es, s =>
    match Pipeline.step task e s with
    | none => none
    | some s' => Pipeline.run task es s'

/-- Modelled from the spec: the state `Idle` of the pipeline, before the
first line is read. -/
def Pipeline.init (lines : List String) : Pipeline :=
  { unread := lines, slots := [], emitted := [] }

/-- Modelled from the spec: the state `Done` of the pipeline, where the input
is exhausted and every slot was drained. -/
def Pipeline.Done (s : Pipeline) : Prop :=
  s.unread = [] ∧ s.slots = []

/-- The text `result` is a rewrite of `line`: what the task of the line
produces for some view of the shared state. -/
def RewriteOf {σ : Type} (task : String → σ → String) (line result : String) : Prop :=
  ∃ view : σ, result = task line view

/-! ## A small concrete library, for evaluating the definitions -/

/-- A digest of sixteen different bytes that depends on the length of the
input only: byte `i` is `17 * i + 3 * length` modulo 256. -/
def sampleDigest (s : String) : Digest :=
  ⟨(List.range 16).map fun i => Fin.ofNat (17 * i + 3 * s.length), by simp⟩

/-- A library over a counter: every draw returns a fixed string, or one picked
by the parity of the counter, and advances the counter. -/
def sampleLib : Lib Nat where
  internetUserName := fun r => ("jdoe", r + 1)
  internetPassword := fun _ _ r => ("correcthorse", r + 1)
  internetSafeEmail := fun r => (if r % 2 = 0 then "ann@example.org" else "bob@example.org", r + 1)
  internetFreeEmail := fun r => ("cal@gmail.com", r + 1)
  internetEmail := fun r => ("dee@quigley.biz", r + 1)
  internetUrl := fun r => ("http://quigley.biz/jdoe", r + 1)
  internetIpV4Address := fun r => ("10.0.0.7", r + 1)
  phoneNumberCellPhone := fun r => ("555-0100", r + 1)
  nameName := fun r => ("Ann Lee", r + 1)
  nameFirstName := fun r => ("Ann", r + 1)
  nameLastName := fun r => ("Lee", r + 1)
  namePrefix := fun r => ("Dr.", r + 1)
  nameTitle := fun r => ("Lead Engineer", r + 1)
  loremSentence := fun _ r => ("Lorem ipsum dolor.", r + 1)
  loremCharacters := fun _ r => ("abcdefghijklmnopqrstuvwxyz0123", r + 1)
  addressString := fun r => ("1 Main St, Oslo", r + 1)
  addressStreetAddress := fun r => ("1 Main St", r + 1)
  addressSecondaryAddress := fun r => ("Apt. 2", r + 1)
  addressState := fun r => ("Ohio", r + 1)
  addressCity := fun r => ("Oslo", r + 1)
  addressPostcode := fun r => ("0150", r + 1)
  addressCountry := fun r => ("Norway", r + 1)
  addressCountryCode := fun r => ("NO", r + 1)
  businessCreditCardNumber := fun r => ("1234-2121-1221-1211", r + 1)
  businessCreditCardExpiryDate := fun r => ("2030-01-01", r + 1)
  businessCreditCardType := fun r => ("visa", r + 1)
  companyName := fun r => ("Quigley Inc", r + 1)
  companySuffix := fun r => ("Inc", r + 1)
  numberNumber := fun _ r => ("123456789", r + 1)
  dateBirthday := fun _ _ r => (315532800000000000, r + 1)
  randInt63n := fun n r => ((7 * (r : Int) + 3) % n, r + 1)
  randIntn := fun n r => ((12345678 + (r : Int)) % n, r + 1)
  md5Sum := sampleDigest
  timeFormat := fun _ t => toString (t / 1000000000)
  generateFakeNorwegianSSN := fun _ r => ("01019012345", r + 1)

/-- A world for the sample library: counter, clock reading, no email used. -/
def sampleWorld (r : Nat) : World Nat :=
  { rng := r, now := 1700000000500000000, usedEmails := [] }

/-- The task the sample rewriter gives: the rewritten line, or the line
itself when the rewrite fails. -/
def sampleTask (line : String) (w : World Nat) : String :=
  match rewrite sampleParse sampleSerialize (lookupTransformer sampleLib 2) samplePolicy line w
  with
  | Except.ok r => r.1
  | Except.error _ => line

/-- The invariant of a run on `lines`: the lines split into those already
consumed, those queued and those unread, in this order; the output is a
rewrite of the consumed lines, position by position; a filled slot holds a
rewrite of its own line. -/
def PipelineInv {σ : Type} (task : String → σ → String) (lines : List String)
    (s : Pipeline) : Prop :=
  ∃ consumed : List String,
    lines = consumed ++ s.slots.map Prod.fst ++ s.unread ∧
    List.Forall₂ (RewriteOf task) consumed s.emitted ∧
    ∀ line result, (line, some result) ∈ s.slots → RewriteOf task line result

/-- The calls of a sample run: five of the email transformer, one of
another transformer in between. -/
def sampleCalls : List (String × Option SQLVal) :=
  [("email", none), ("username", none), ("email", some (NewStrVal "hosting@humanmade.com")),
    ("email", none), ("email", none), ("email", none)]

/-! ## The registry -/

theorem lookup_isSome_iff_mem_keys {β : Type} (l : List (String × β)) (a : String) :
    (l.lookup a).isSome ↔ a ∈ l.map Prod.fst := by
  induction l with
  | nil => simp [List.lookup]
  | cons p t ih =>
    obtain ⟨k, b⟩ := p
    by_cases h : a = k
    · subst h
      simp [List.lookup]
    · have hb : (a == k) = false := by simpa using h
      simp [List.lookup, hb, ih, h]

theorem mem_of_lookup_eq_some {β : Type} (l : List (String × β)) (a : String) (b : β)
    (h : l.lookup a = some b) : (a, b) ∈ l := by
  induction l with
  | nil => simp [List.lookup] at h
  | cons p t ih =>
    obtain ⟨k, c⟩ := p
    by_cases hk : a = k
    · subst hk
      simp [List.lookup] at h
      simp [h]
    · have hb : (a == k) = false := by simpa using hk
      simp [List.lookup, hb] at h
      exact List.mem_cons_of_mem _ (ih h)

theorem GetFakerFuncs_keys {ρ : Type} (L : Lib ρ) (fuel : Nat) :
    (GetFakerFuncs L fuel).map Prod.fst = recognisedNames := rfl

/-- C2. The map returned by `GetFakerFuncs` has a transformer for a name
exactly when the name is one of the 33 recognised identifiers; the lookup of
any other name finds nothing. -/
theorem registry_key_set {ρ : Type} (L : Lib ρ) (fuel : Nat) (name : String) :
    recognisedNames.length = 33 ∧
    ((lookupTransformer L fuel name).isSome ↔ name ∈ recognisedNames) ∧
    (name ∉ recognisedNames ↔ lookupTransformer L fuel name = none) := by
  have key : (lookupTransformer L fuel name).isSome ↔ name ∈ recognisedNames := by
    rw [← GetFakerFuncs_keys L fuel]
    exact lookup_isSome_iff_mem_keys _ _
  refine ⟨rfl, key, ?_⟩
  rw [← key]
  cases lookupTransformer L fuel name <;> simp

/-- C7. The transformer registered under `purge` returns, for every input
value (the nil pointer included) and in every world, a value of type `StrVal`
whose content is the empty string, and leaves the world as it was. -/
theorem purge_returns_empty_string {ρ : Type} (L : Lib ρ) (fuel : Nat) :
    ∃ f, lookupTransformer L fuel "purge" = some f ∧
      ∀ (value : Option SQLVal) (w : World ρ),
        ∃ out, f value w = some (out, w) ∧ out.Type_ = ValType.StrVal ∧ out.Val = "" := by
  refine ⟨generateEmptyString, ?_, ?_⟩
  · simp [lookupTransformer, GetFakerFuncs, List.lookup]
  · intro value w
    exact ⟨NewStrVal "", rfl, rfl, rfl⟩

/-- C10. A transformer of the registry never reads the value it replaces: run
on two input values from the same world (random source, clock reading and
used-email set) it gives the same output and the same resulting world. -/
theorem transformer_ignores_original {ρ : Type} (L : Lib ρ) (fuel : Nat) (name : String)
    (f : Transformer ρ) (v1 v2 : Option SQLVal) (w : World ρ)
    (hf : lookupTransformer L fuel name = some f) :
    f v1 w = f v2 w := by
  have hmem := mem_of_lookup_eq_some _ _ _ hf
  simp only [GetFakerFuncs, List.mem_cons, Prod.mk.injEq, List.mem_singleton,
    List.not_mem_nil, or_false] at hmem
  rcases hmem with h | h | h | h | h | h | h | h | h | h | h | h | h | h | h | h | h |
    h | h | h | h | h | h | h | h | h | h | h | h | h | h | h | h <;>
  · obtain ⟨-, rfl⟩ := h
    rfl

theorem transformer_ignores_original_witness :
    lookupTransformer sampleLib 4 "email" = some (generateEmail sampleLib 4) ∧
    generateEmail sampleLib 4 none (sampleWorld 0) =
      generateEmail sampleLib 4 (some (NewStrVal "hosting@humanmade.com")) (sampleWorld 0) :=
  ⟨by simp [lookupTransformer, GetFakerFuncs, List.lookup],
   transformer_ignores_original sampleLib 4 "email" _ none
     (some (NewStrVal "hosting@humanmade.com")) (sampleWorld 0)
     (by simp [lookupTransformer, GetFakerFuncs, List.lookup])⟩

/-! ## Uniqueness of the generated emails -/

theorem generateEmailLoop_fresh {ρ : Type} (L : Lib ρ) (fuel : Nat) (w : World ρ)
    (out : SQLVal) (w' : World ρ) (h : generateEmailLoop L fuel w = some (out, w')) :
    out = NewStrVal out.Val ∧ out.Val ∉ w.usedEmails ∧
      w'.usedEmails = out.Val :: w.usedEmails := by
  induction fuel generalizing w with
  | zero => simp [generateEmailLoop] at h
  | succ n ih =>
    simp only [generateEmailLoop] at h
    by_cases h1 : (L.internetSafeEmail w.rng).1 ∈ w.usedEmails
    · by_cases h2 : (L.internetFreeEmail (L.internetSafeEmail w.rng).2).1 ∈ w.usedEmails
      · by_cases h3 : (L.internetEmail (L.internetFreeEmail
            (L.internetSafeEmail w.rng).2).2).1 ∈ w.usedEmails
        · simp only [h1, h2, h3, not_true_eq_false, if_false] at h
          have hrec := ih _ h
          exact hrec
        · simp only [h1, h2, h3, not_true_eq_false, not_false_eq_true, if_false, if_true,
            Option.some.injEq, Prod.mk.injEq] at h
          obtain ⟨rfl, rfl⟩ := h
          exact ⟨rfl, h3, rfl⟩
      · simp only [h1, h2, not_true_eq_false, not_false_eq_true, if_false, if_true,
          Option.some.injEq, Prod.mk.injEq] at h
        obtain ⟨rfl, rfl⟩ := h
        exact ⟨rfl, h2, rfl⟩
    · simp only [h1, not_false_eq_true, if_true, Option.some.injEq, Prod.mk.injEq] at h
      obtain ⟨rfl, rfl⟩ := h
      exact ⟨rfl, h1, rfl⟩

theorem strValOf_usedEmails {ρ : Type} (g : Gen ρ String) (w : World ρ) (out : SQLVal)
    (w' : World ρ) (h : strValOf g w = some (out, w')) : w'.usedEmails = w.usedEmails := by
  simp only [strValOf, Option.some.injEq, Prod.mk.injEq] at h
  obtain ⟨-, rfl⟩ := h
  rfl

theorem generateSpanishDniString_usedEmails {ρ : Type} (L : Lib ρ) (value : Option SQLVal)
    (w : World ρ) (out : SQLVal) (w' : World ρ)
    (h : generateSpanishDniString L value w = some (out, w')) :
    w'.usedEmails = w.usedEmails := by
  simp only [generateSpanishDniString] at h
  split_ifs at h
  split at h
  · simp at h
  · simp only [Option.some.injEq, Prod.mk.injEq] at h
    obtain ⟨-, rfl⟩ := h
    rfl

/-- Every transformer of the registry other than `email` leaves `usedEmails`
as it found it. -/
theorem registry_preserves_usedEmails {ρ : Type} (L : Lib ρ) (fuel : Nat) (name : String)
    (f : Transformer ρ) (hf : lookupTransformer L fuel name = some f) (hne : name ≠ "email")
    (value : Option SQLVal) (w : World ρ) (out : SQLVal) (w' : World ρ)
    (h : f value w = some (out, w')) : w'.usedEmails = w.usedEmails := by
  have hmem := mem_of_lookup_eq_some _ _ _ hf
  simp only [GetFakerFuncs, List.mem_cons, Prod.mk.injEq, List.mem_singleton,
    List.not_mem_nil, or_false] at hmem
  rcases hmem with c | c | c | c | c | c | c | c | c | c | c | c | c | c | c | c | c |
    c | c | c | c | c | c | c | c | c | c | c | c | c | c | c | c <;>
  obtain ⟨rfl, rfl⟩ := c <;>
  first
  | exact absurd rfl hne
  | exact strValOf_usedEmails _ _ _ _ h
  | exact generateSpanishDniString_usedEmails _ _ _ _ _ h
  | (simp only [generatePassword, generateBillingAddress, generateEmptyString,
      generateNorwegianSSN, generateWPDateTime, generateWPFutureDateTime,
      Option.some.injEq, Prod.mk.injEq] at h
     obtain ⟨-, rfl⟩ := h
     rfl)

theorem registry_email {ρ : Type} (L : Lib ρ) (fuel : Nat) :
    lookupTransformer L fuel "email" = some (generateEmail L fuel) := by
  simp [lookupTransformer, GetFakerFuncs, List.lookup]

/-- The emails a run returns are pairwise different and none of them was in
`usedEmails` when the run started. -/
theorem returnedEmails_fresh {ρ : Type} (L : Lib ρ) (fuel : Nat)
    (calls : List (String × Option SQLVal)) (w : World ρ) :
    (returnedEmails (runCalls L fuel calls w)).Nodup ∧
      ∀ e ∈ returnedEmails (runCalls L fuel calls w), e ∉ w.usedEmails := by
  induction calls generalizing w with
  | nil => simp [runCalls, returnedEmails]
  | cons c rest ih =>
    obtain ⟨name, value⟩ := c
    cases hf : lookupTransformer L fuel name with
    | none => simp [runCalls, hf, returnedEmails]
    | some f =>
      cases hr : f value w with
      | none => simp [runCalls, hf, hr, returnedEmails]
      | some r =>
        obtain ⟨out, w'⟩ := r
        obtain ⟨hnd, hfresh⟩ := ih w'
        simp only [runCalls, hf, hr]
        by_cases hname : name = "email"
        · subst hname
          rw [registry_email] at hf
          obtain rfl := Option.some.inj hf
          obtain ⟨-, hout, hused⟩ := generateEmailLoop_fresh L fuel w out w' hr
          have hcons : returnedEmails (("email", out) :: runCalls L fuel rest w') =
              out.Val :: returnedEmails (runCalls L fuel rest w') := by
            simp [returnedEmails]
          simp only [hcons]
          refine ⟨List.nodup_cons.mpr ⟨?_, hnd⟩, ?_⟩
          · intro hin
            exact hfresh _ hin (by rw [hused]; exact List.mem_cons_self _ _)
          · intro e he
            rcases List.mem_cons.mp he with rfl | he
            · exact hout
            · intro hin
              exact hfresh e he (by rw [hused]; exact List.mem_cons_of_mem _ hin)
        · have hsame := registry_preserves_usedEmails L fuel name f hf hname value w out w' hr
          have hskip : returnedEmails ((name, out) :: runCalls L fuel rest w') =
              returnedEmails (runCalls L fuel rest w') := by
            have hb : (name == "email") = false := by simpa using hname
            simp [returnedEmails, List.filter, hb]
          simp only [hskip]
          refine ⟨hnd, ?_⟩
          intro e he
          rw [← hsame]
          exact hfresh e he

/-- C1. Each call of `generateEmail` that returns yields a string that was not
in `usedEmails` before the call and is in it afterwards (the call adds that
string and nothing else); and in any run of the registry that starts with an
empty `usedEmails`, whatever the generators draw, the strings returned by the
calls of the email transformer are pairwise different. -/
theorem email_uniqueness {ρ : Type} (L : Lib ρ) (fuel : Nat) :
    (∀ (value : Option SQLVal) (w : World ρ) (out : SQLVal) (w' : World ρ),
      generateEmail L fuel value w = some (out, w') →
        out.Type_ = ValType.StrVal ∧ out.Val ∉ w.usedEmails ∧ out.Val ∈ w'.usedEmails ∧
          w'.usedEmails = out.Val :: w.usedEmails) ∧
    (∀ (calls : List (String × Option SQLVal)) (w : World ρ), w.usedEmails = [] →
      (returnedEmails (runCalls L fuel calls w)).Nodup) := by
  constructor
  · intro value w out w' h
    obtain ⟨hval, hout, hused⟩ := generateEmailLoop_fresh L fuel w out w' h
    refine ⟨by rw [hval]; rfl, hout, ?_, hused⟩
    rw [hused]
    exact List.mem_cons_self _ _
  · intro calls w _
    exact (returnedEmails_fresh L fuel calls w).1

/-- With the sample library the first four calls of the email transformer
return four different strings and the fifth, all candidates being used, does
not return within its fuel. -/
theorem email_uniqueness_witness :
    returnedEmails (runCalls sampleLib 3 sampleCalls (sampleWorld 0)) =
      ["ann@example.org", "cal@gmail.com", "bob@example.org", "dee@quigley.biz"] ∧
    (returnedEmails (runCalls sampleLib 3 sampleCalls (sampleWorld 0))).Nodup :=
  ⟨by rfl, (email_uniqueness sampleLib 3).2 sampleCalls (sampleWorld 0) rfl⟩

/-! ## The Spanish identifier -/

theorem hextable_getD_mem (i : Nat) (hi : i < 16) : hextable.getD i '0' ∈ hextable := by
  interval_cases i <;> decide

theorem hexEncodeToString_length (src : List (Fin 256)) :
    (hexEncodeToString src).length = 2 * src.length := by
  induction src with
  | nil => rfl
  | cons v t ih =>
    simp only [hexEncodeToString, String.length_mk, List.flatMap_cons, List.length_append,
      List.length_cons, List.length_nil] at ih ⊢
    omega

theorem hexEncodeToString_chars (src : List (Fin 256)) :
    ∀ c ∈ (hexEncodeToString src).toList, c ∈ hextable := by
  intro c hc
  have hlist : (hexEncodeToString src).toList =
      src.flatMap fun v => [hextable.getD (v.val / 16) '0', hextable.getD (v.val % 16) '0'] :=
    rfl
  rw [hlist, List.mem_flatMap] at hc
  obtain ⟨v, -, hv⟩ := hc
  simp only [List.mem_cons, List.mem_singleton, List.not_mem_nil, or_false] at hv
  rcases hv with hv | hv
  · subst hv
    exact hextable_getD_mem _ (by omega)
  · subst hv
    exact hextable_getD_mem _ (Nat.mod_lt _ (by decide))

theorem lowerHexValue_hextable (i : Nat) (hi : i < 16) :
    lowerHexValue (hextable.getD i '0') = some i := by
  interval_cases i <;> decide

/-- Reading back what `hex.EncodeToString` wrote gives the bytes it was
given: every pair of characters denotes its byte. -/
theorem decodeLowerHex_hexEncodeToString (src : List (Fin 256)) :
    decodeLowerHex (hexEncodeToString src).toList = some (src.map Fin.val) := by
  induction src with
  | nil => rfl
  | cons v t ih =>
    have hsplit : (hexEncodeToString (v :: t)).toList =
        hextable.getD (v.val / 16) '0' :: hextable.getD (v.val % 16) '0' ::
          (hexEncodeToString t).toList := rfl
    have hhi := lowerHexValue_hextable (v.val / 16) (by omega)
    have hlo := lowerHexValue_hextable (v.val % 16) (Nat.mod_lt _ (by decide))
    rw [hsplit]
    simp only [decodeLowerHex, hhi, hlo, ih, List.map_cons]
    congr 2
    omega

/-- C5. For every passphrase the library draws, `generatePassword` returns the
hex encoding of the 16-byte digest of the passphrase: a string of exactly 32
characters, each one of `0`-`9`, `a`-`f`, which read as lower-case
hexadecimal, two digits per byte, denotes the sixteen bytes of the digest in
order; it is not the passphrase, which has another length. -/
theorem password_digest_shape {ρ : Type} (L : Lib ρ) (value : Option SQLVal) (w : World ρ) :
    ∃ out : SQLVal,
      generatePassword L value w =
        some (out, { w with rng := (L.internetPassword 8 14 w.rng).2 }) ∧
      out.Type_ = ValType.StrVal ∧
      out.Val = hexEncodeToString (L.md5Sum (L.internetPassword 8 14 w.rng).1).val ∧
      out.Val.length = 32 ∧
      (∀ c ∈ out.Val.toList, c ∈ "0123456789abcdef".toList) ∧
      decodeLowerHex out.Val.toList =
        some ((L.md5Sum (L.internetPassword 8 14 w.rng).1).val.map Fin.val) ∧
      ((L.internetPassword 8 14 w.rng).1.length ≠ 32 →
        out.Val ≠ (L.internetPassword 8 14 w.rng).1) := by
  have hlen : (hexEncodeToString (L.md5Sum (L.internetPassword 8 14 w.rng).1).val).length = 32 := by
    rw [hexEncodeToString_length, (L.md5Sum (L.internetPassword 8 14 w.rng).1).property]
  refine ⟨NewStrVal (hexEncodeToString (L.md5Sum (L.internetPassword 8 14 w.rng).1).val),
    rfl, rfl, rfl, hlen, hexEncodeToString_chars _, decodeLowerHex_hexEncodeToString _, ?_⟩
  intro hne heq
  apply hne
  rw [← heq]
  exact hlen

theorem password_digest_shape_witness :
    (generatePassword sampleLib none (sampleWorld 0)).map (fun r => r.1.Val) =
      some "2435465768798a9bacbdcedff0011223" ∧
    (sampleLib.md5Sum "correcthorse").val.map Fin.val =
      [36, 53, 70, 87, 104, 121, 138, 155, 172, 189, 206, 223, 240, 1, 18, 35] ∧
    decodeLowerHex "2435465768798a9bacbdcedff0011223".toList =
      some [36, 53, 70, 87, 104, 121, 138, 155, 172, 189, 206, 223, 240, 1, 18, 35] ∧
    ∃ out : SQLVal,
      generatePassword sampleLib none (sampleWorld 0) =
        some (out, { sampleWorld 0 with
          rng := (sampleLib.internetPassword 8 14 (sampleWorld 0).rng).2 }) ∧
      out.Type_ = ValType.StrVal ∧
      out.Val = hexEncodeToString
        (sampleLib.md5Sum (sampleLib.internetPassword 8 14 (sampleWorld 0).rng).1).val ∧
      out.Val.length = 32 ∧
      (∀ c ∈ out.Val.toList, c ∈ "0123456789abcdef".toList) ∧
      decodeLowerHex out.Val.toList =
        some ((sampleLib.md5Sum
          (sampleLib.internetPassword 8 14 (sampleWorld 0).rng).1).val.map Fin.val) ∧
      ((sampleLib.internetPassword 8 14 (sampleWorld 0).rng).1.length ≠ 32 →
        out.Val ≠ (sampleLib.internetPassword 8 14 (sampleWorld 0).rng).1) :=
  ⟨by decide, by decide, by decide, password_digest_shape sampleLib none (sampleWorld 0)⟩

/-! ## The date generators -/

theorem wrapInt64_of_range (x : Int) (hlo : -(2 ^ 63) ≤ x) (hhi : x < 2 ^ 63) :
    wrapInt64 x = x := by
  unfold wrapInt64
  have h : (x + 2 ^ 63) % 2 ^ 64 = x + 2 ^ 63 :=
    Int.emod_eq_of_lt (by omega) (by omega)
  omega

/-- C6. For every clock reading and every draw `r` that `rand.Int63n` can
return for the bound `11*365*24*60*60`, `generateWPFutureDateTime` renders
the time `now + r` seconds, which is not before `now` and is less than
`11*365*24*60*60` seconds after it; `generateWPDateTime` renders `now + r` or
`now - r` seconds, a time less than `11*365*24*60*60` seconds away from
`now`, on either side. The products of durations do not overflow. `Format`
drops the fraction of a second: the second the future variant renders is the
second of `now` plus `r`. -/
theorem wp_datetime_window {ρ : Type} (L : Lib ρ) (value : Option SQLVal) (w : World ρ)
    (r : Int) (hdraw : (L.randInt63n (11 * 365 * 24 * 60 * 60) w.rng).1 = r)
    (h0 : 0 ≤ r) (hmax : r < 11 * 365 * 24 * 60 * 60) :
    (∃ t : Int,
      generateWPFutureDateTime L value w =
        some (NewStrVal (L.timeFormat "2006-01-02 15:04:05" t),
          { w with rng := (L.randInt63n (11 * 365 * 24 * 60 * 60) w.rng).2 }) ∧
      t = w.now + r * Second ∧
      w.now ≤ t ∧ t < w.now + 11 * 365 * 24 * 60 * 60 * Second ∧
      t / Second = w.now / Second + r) ∧
    (∃ t : Int,
      generateWPDateTime L value w =
        some (NewStrVal (L.timeFormat "2006-01-02 15:04:05" t),
          { w with rng := (L.randIntn 2
              (L.randInt63n (11 * 365 * 24 * 60 * 60) w.rng).2).2 }) ∧
      (t = w.now + r * Second ∨ t = w.now - r * Second) ∧
      w.now - 11 * 365 * 24 * 60 * 60 * Second < t ∧
      t < w.now + 11 * 365 * 24 * 60 * 60 * Second) := by
  have hpos : wrapInt64 (r * Second) = r * Second := by
    apply wrapInt64_of_range <;> simp only [Second] <;> omega
  have hneg : wrapInt64 (wrapInt64 (-r) * Second) = -(r * Second) := by
    rw [wrapInt64_of_range (-r) (by omega) (by omega)]
    rw [wrapInt64_of_range] <;> simp only [Second] <;> omega
  constructor
  · refine ⟨w.now + r * Second, ?_, rfl, ?_, ?_, ?_⟩
    · simp only [generateWPFutureDateTime, hdraw, hpos, wpLayout]
    · simp only [Second]; omega
    · simp only [Second]; omega
    · simp only [Second]; omega
  · by_cases hc : (L.randIntn 2 (L.randInt63n (11 * 365 * 24 * 60 * 60) w.rng).2).1 = 0
    · refine ⟨w.now + r * Second, ?_, Or.inl rfl, ?_, ?_⟩
      · simp only [generateWPDateTime, hdraw, hc, hpos, wpLayout, if_true]
      · simp only [Second]; omega
      · simp only [Second]; omega
    · refine ⟨w.now - r * Second, ?_, Or.inr rfl, ?_, ?_⟩
      · simp only [generateWPDateTime, hdraw, hc, hneg, wpLayout, if_false]
        rfl
      · simp only [Second]; omega
      · simp only [Second]; omega

theorem wp_datetime_window_witness :
    (generateWPFutureDateTime sampleLib none (sampleWorld 1)).map (fun p => p.1.Val) =
      some "1700000010" ∧
    (generateWPDateTime sampleLib none (sampleWorld 1)).map (fun p => p.1.Val) =
      some "1700000010" ∧
    (generateWPDateTime sampleLib none (sampleWorld 2)).map (fun p => p.1.Val) =
      some "1699999983" ∧
    (∃ t : Int,
      generateWPFutureDateTime sampleLib none (sampleWorld 2) =
        some (NewStrVal (sampleLib.timeFormat "2006-01-02 15:04:05" t),
          { sampleWorld 2 with
            rng := (sampleLib.randInt63n (11 * 365 * 24 * 60 * 60) (sampleWorld 2).rng).2 }) ∧
      t = (sampleWorld 2).now + 17 * Second ∧
      (sampleWorld 2).now ≤ t ∧ t < (sampleWorld 2).now + 11 * 365 * 24 * 60 * 60 * Second ∧
      t / Second = (sampleWorld 2).now / Second + 17) ∧
    (∃ t : Int,
      generateWPDateTime sampleLib none (sampleWorld 2) =
        some (NewStrVal (sampleLib.timeFormat "2006-01-02 15:04:05" t),
          { sampleWorld 2 with rng := (sampleLib.randIntn 2
              (sampleLib.randInt63n (11 * 365 * 24 * 60 * 60) (sampleWorld 2).rng).2).2 }) ∧
      (t = (sampleWorld 2).now + 17 * Second ∨ t = (sampleWorld 2).now - 17 * Second) ∧
      (sampleWorld 2).now - 11 * 365 * 24 * 60 * 60 * Second < t ∧
      t < (sampleWorld 2).now + 11 * 365 * 24 * 60 * 60 * Second) :=
  ⟨by decide, by decide, by decide,
   wp_datetime_window sampleLib none (sampleWorld 2) 17 (by decide) (by decide) (by decide)⟩

/-! ## The billing address -/

/-- C4, as stated, fails: with the sample library the six components are
`Ann`, `Lee`, `1 Main St, Oslo`, `NO`, `ann@example.org` and `555-0100`, and
`generateBillingAddress` returns their space-join preceded by one more
space, which is not the space-join itself. -/
theorem billing_address_not_plain_join :
    (sampleLib.nameFirstName 0).1 = "Ann" ∧
    (sampleLib.nameLastName 1).1 = "Lee" ∧
    (sampleLib.addressString 2).1 = "1 Main St, Oslo" ∧
    (sampleLib.addressCountryCode 3).1 = "NO" ∧
    (sampleLib.internetSafeEmail 4).1 = "ann@example.org" ∧
    (sampleLib.phoneNumberCellPhone 5).1 = "555-0100" ∧
    (generateBillingAddress sampleLib none (sampleWorld 0)).map (fun r => r.1.Val) =
      some " Ann Lee 1 Main St, Oslo NO ann@example.org 555-0100" ∧
    (generateBillingAddress sampleLib none (sampleWorld 0)).map (fun r => r.1.Val) ≠
      some (" ".intercalate
        ["Ann", "Lee", "1 Main St, Oslo", "NO", "ann@example.org", "555-0100"]) := by
  decide

/-- C4, amended. For every choice of the six generated components (first
name, last name, full address, country code, email, phone number, drawn in
that order), `generateBillingAddress` returns one space followed by the six
components, in that order, joined by single spaces: every component,
the first included, is preceded by one space and nothing follows the last. -/
theorem billing_address_composite {ρ : Type} (L : Lib ρ) (value : Option SQLVal)
    (w : World ρ) (firstName lastName address countryCode email phone : String)
    (r1 r2 r3 r4 r5 r6 : ρ)
    (h1 : L.nameFirstName w.rng = (firstName, r1))
    (h2 : L.nameLastName r1 = (lastName, r2))
    (h3 : L.addressString r2 = (address, r3))
    (h4 : L.addressCountryCode r3 = (countryCode, r4))
    (h5 : L.internetSafeEmail r4 = (email, r5))
    (h6 : L.phoneNumberCellPhone r5 = (phone, r6)) :
    generateBillingAddress L value w =
      some (NewStrVal (" " ++ " ".intercalate
          [firstName, lastName, address, countryCode, email, phone]),
        { w with rng := r6 }) := by
  simp only [generateBillingAddress, h1, h2, h3, h4, h5, h6, String.intercalate,
    String.intercalate.go, String.append_assoc]
  rfl

theorem billing_address_composite_witness :
    generateBillingAddress sampleLib none (sampleWorld 0) =
      some (NewStrVal (" " ++ " ".intercalate
          ["Ann", "Lee", "1 Main St, Oslo", "NO", "ann@example.org", "555-0100"]),
        { sampleWorld 0 with rng := 6 }) :=
  billing_address_composite sampleLib none (sampleWorld 0)
    "Ann" "Lee" "1 Main St, Oslo" "NO" "ann@example.org" "555-0100" 1 2 3 4 5 6
    rfl rfl rfl rfl rfl rfl

/-! ## Positional rewriting -/

section Rewriter

variable {ρ : Type} (registry : String → Option (Transformer ρ)) (tp : TablePolicy)
  (names : List String)

end Rewriter

section PipelineProofs

variable {σ : Type} (task : String → σ → String)

theorem map_fst_set_same (slots : List (String × Option String)) (i : Nat) (line : String)
    (old new : Option String) (h : slots[i]? = some (line, old)) :
    (slots.set i (line, new)).map Prod.fst = slots.map Prod.fst := by
  induction slots generalizing i with
  | nil => simp at h
  | cons p t ih =>
    cases i with
    | zero =>
      simp only [List.getElem?_cons_zero, Option.some.injEq] at h
      subst h
      simp
    | succ i =>
      simp only [List.getElem?_cons_succ] at h
      simp [ih i h]

theorem PipelineInv_init (lines : List String) : PipelineInv task lines (Pipeline.init lines) :=
  ⟨[], by simp [Pipeline.init], List.Forall₂.nil, by simp [Pipeline.init]⟩

theorem PipelineInv_step (lines : List String) (e : Event σ) (s s' : Pipeline)
    (hinv : PipelineInv task lines s) (hstep : Pipeline.step task e s = some s') :
    PipelineInv task lines s' := by
  obtain ⟨consumed, hsplit, hout, hslots⟩ := hinv
  cases e with
  | dispatch =>
    cases hu : s.unread with
    | nil => simp [Pipeline.step, hu] at hstep
    | cons line rest =>
      simp only [Pipeline.step, hu, Option.some.injEq] at hstep
      subst hstep
      refine ⟨consumed, ?_, hout, ?_⟩
      · simp only [hsplit, hu, List.map_append, List.map_cons, List.map_nil,
          List.append_assoc, List.singleton_append]
      · intro l r hmem
        simp only [List.mem_append, List.mem_singleton, Prod.mk.injEq] at hmem
        rcases hmem with hmem | ⟨-, hne⟩
        · exact hslots l r hmem
        · cases hne
  | complete i view =>
    cases hi : s.slots[i]? with
    | none => simp [Pipeline.step, hi] at hstep
    | some p =>
      obtain ⟨line, cell⟩ := p
      cases cell with
      | some r => simp [Pipeline.step, hi] at hstep
      | none =>
        simp only [Pipeline.step, hi, Option.some.injEq] at hstep
        subst hstep
        refine ⟨consumed, ?_, hout, ?_⟩
        · simp only [map_fst_set_same s.slots i line none _ hi]
          exact hsplit
        · intro l r hmem
          rcases List.mem_or_eq_of_mem_set hmem with hmem | heq
          · exact hslots l r hmem
          · simp only [Prod.mk.injEq, Option.some.injEq] at heq
            obtain ⟨rfl, rfl⟩ := heq
            exact ⟨view, rfl⟩
  | consume =>
    cases hs : s.slots with
    | nil => simp [Pipeline.step, hs] at hstep
    | cons p rest =>
      obtain ⟨line, cell⟩ := p
      cases cell with
      | none => simp [Pipeline.step, hs] at hstep
      | some r =>
        simp only [Pipeline.step, hs, Option.some.injEq] at hstep
        subst hstep
        refine ⟨consumed ++ [line], ?_, ?_, ?_⟩
        · simp only [hsplit, hs, List.map_cons, List.append_assoc, List.singleton_append]
        · exact List.rel_append hout
            (List.Forall₂.cons (hslots line r (by simp [hs])) List.Forall₂.nil)
        · intro l r' hmem
          exact hslots l r' (by simp [hs, hmem])

theorem PipelineInv_run (lines : List String) (schedule : List (Event σ)) (s s' : Pipeline)
    (hinv : PipelineInv task lines s) (hrun : Pipeline.run task schedule s = some s') :
    PipelineInv task lines s' := by
  induction schedule generalizing s with
  | nil =>
    simp only [Pipeline.run, Option.some.injEq] at hrun
    subst hrun
    exact hinv
  | cons e es ih =>
    cases hstep : Pipeline.step task e s with
    | none => simp [Pipeline.run, hstep] at hrun
    | some s1 =>
      simp only [Pipeline.run, hstep] at hrun
      exact ih s1 (PipelineInv_step task lines e s s1 hinv hstep) hrun

/-- A state that is not `Done` has an enabled event: the next line can be
read, or the head slot can be dequeued, or the task of the head slot can
finish. -/
theorem Pipeline.exists_step (view : σ) (s : Pipeline) (hnot : ¬ s.Done) :
    ∃ e s', Pipeline.step task e s = some s' := by
  cases hu : s.unread with
  | cons line rest =>
    refine ⟨Event.dispatch, ?_⟩
    simp [Pipeline.step, hu]
  | nil =>
    cases hs : s.slots with
    | nil => exact absurd ⟨hu, hs⟩ hnot
    | cons p rest =>
      obtain ⟨line, cell⟩ := p
      cases cell with
      | none =>
        refine ⟨Event.complete 0 view, ?_⟩
        simp [Pipeline.step, hs]
      | some r =>
        refine ⟨Event.consume, ?_⟩
        simp [Pipeline.step, hs]

end PipelineProofs

section PipelineCompletion

variable {σ : Type} (task : String → σ → String)

theorem Pipeline.run_append (es1 es2 : List (Event σ)) (s : Pipeline) :
    Pipeline.run task (es1 ++ es2) s =
      (Pipeline.run task es1 s).bind (Pipeline.run task es2) := by
  induction es1 generalizing s with
  | nil => rfl
  | cons e es ih =>
    cases hstep : Pipeline.step task e s with
    | none => simp [Pipeline.run, hstep]
    | some s1 => simp [Pipeline.run, hstep, ih]

/-- With the input exhausted, the queue can be drained: each head slot is
awaited, then dequeued. -/
theorem Pipeline.can_drain (view : σ) (slots : List (String × Option String))
    (emitted : List String) :
    ∃ schedule s', Pipeline.run task schedule
        { unread := [], slots := slots, emitted := emitted } = some s' ∧ s'.Done := by
  induction slots generalizing emitted with
  | nil => exact ⟨[], _, rfl, rfl, rfl⟩
  | cons p rest ih =>
    obtain ⟨line, cell⟩ := p
    cases cell with
    | none =>
      obtain ⟨schedule, s', hrun, hdone⟩ := ih (emitted ++ [task line view])
      refine ⟨Event.complete 0 view :: Event.consume :: schedule, s', ?_, hdone⟩
      simpa [Pipeline.run, Pipeline.step] using hrun
    | some r =>
      obtain ⟨schedule, s', hrun, hdone⟩ := ih (emitted ++ [r])
      refine ⟨Event.consume :: schedule, s', ?_, hdone⟩
      simpa [Pipeline.run, Pipeline.step] using hrun

/-- Every state can be run to `Done`: the remaining lines are read, then
the queue is drained. -/
theorem Pipeline.can_finish (view : σ) (s : Pipeline) :
    ∃ schedule s', Pipeline.run task schedule s = some s' ∧ s'.Done := by
  obtain ⟨unread, slots, emitted⟩ := s
  induction unread generalizing slots with
  | nil => exact Pipeline.can_drain task view slots emitted
  | cons line rest ih =>
    obtain ⟨schedule, s', hrun, hdone⟩ := ih (slots ++ [(line, none)])
    refine ⟨Event.dispatch :: schedule, s', ?_, hdone⟩
    simpa [Pipeline.run, Pipeline.step] using hrun

end PipelineCompletion

/-- C9. Run the pipeline on `lines` under any schedule of its events, that
is any interleaving of reading, of task completions in any order, and of
consumption. At every point of the run the output is, position by position,
a rewrite of the first lines of the input; once the pipeline is `Done` the
output is the rewrite of line 1, then of line 2, up to the last line, in
input order. The run never blocks before `Done`, and it can always be
completed. -/
theorem order_preservation {σ : Type} (task : String → σ → String) (lines : List String)
    (schedule : List (Event σ)) (s : Pipeline)
    (hrun : Pipeline.run task schedule (Pipeline.init lines) = some s) :
    List.Forall₂ (RewriteOf task) (lines.take s.emitted.length) s.emitted ∧
    (s.Done → List.Forall₂ (RewriteOf task) lines s.emitted) ∧
    (∀ view : σ, ¬ s.Done → ∃ e s', Pipeline.step task e s = some s') ∧
    (∀ view : σ, ∃ schedule' s',
      Pipeline.run task (schedule ++ schedule') (Pipeline.init lines) = some s' ∧ s'.Done ∧
      List.Forall₂ (RewriteOf task) lines s'.emitted) := by
  have hinv := PipelineInv_run task lines schedule _ s (PipelineInv_init task lines) hrun
  have hdone : ∀ s1 : Pipeline, PipelineInv task lines s1 → s1.Done →
      List.Forall₂ (RewriteOf task) lines s1.emitted := by
    intro s1 h1 hd
    obtain ⟨consumed, hsplit, hout, -⟩ := h1
    obtain ⟨hu, hs⟩ := hd
    have : lines = consumed := by simpa [hu, hs] using hsplit
    rw [this]
    exact hout
  refine ⟨?_, hdone s hinv, fun view hnot => Pipeline.exists_step task view s hnot, ?_⟩
  · obtain ⟨consumed, hsplit, hout, -⟩ := hinv
    have hlen := hout.length_eq
    rw [hsplit, List.append_assoc, List.take_left' hlen]
    exact hout
  · intro view
    obtain ⟨schedule', s', hrun', hdone'⟩ := Pipeline.can_finish task view s
    have hall : Pipeline.run task (schedule ++ schedule') (Pipeline.init lines) = some s' := by
      rw [Pipeline.run_append, hrun]
      exact hrun'
    exact ⟨schedule', s', hall, hdone',
      hdone s' (PipelineInv_run task lines _ _ s' (PipelineInv_init task lines) hall) hdone'⟩

theorem order_preservation_witness :
    Pipeline.run sampleTask
        [Event.dispatch, Event.dispatch, Event.complete 1 (sampleWorld 0), Event.dispatch,
          Event.complete 2 (sampleWorld 0), Event.complete 0 (sampleWorld 3), Event.consume,
          Event.consume, Event.consume]
        (Pipeline.init [usersQuery, "-- Dump completed", "UNLOCK TABLES;"]) =
      some {
        unread := [], slots := [],
        emitted := [sampleTask usersQuery (sampleWorld 3), "-- Dump completed",
          "UNLOCK TABLES;"] } ∧
    List.Forall₂ (RewriteOf sampleTask)
      [usersQuery, "-- Dump completed", "UNLOCK TABLES;"]
      [sampleTask usersQuery (sampleWorld 3), "-- Dump completed", "UNLOCK TABLES;"] :=
  ⟨by rfl,
   ((order_preservation sampleTask [usersQuery, "-- Dump completed", "UNLOCK TABLES;"]
      [Event.dispatch, Event.dispatch, Event.complete 1 (sampleWorld 0), Event.dispatch,
        Event.complete 2 (sampleWorld 0), Event.complete 0 (sampleWorld 3), Event.consume,
        Event.consume, Event.consume]
      {
        unread := [], slots := [],
        emitted := [sampleTask usersQuery (sampleWorld 3), "-- Dump completed",
          "UNLOCK TABLES;"] }
      (by rfl)).2.1 ⟨rfl, rfl⟩)⟩

end Anonymize
